import Mathlib

/-!
Shallow embedding of the cache and analytics core of the marketing-content
generation service (`src/services/cache_service.py` and
`src/services/content_analytics.py`), with theorems settling the frozen
claims about it.

Modelling conventions:
* `datetime.now()` timestamps are natural numbers passed explicitly to each
  operation (`now`); `timedelta(seconds=ttl)` is addition on `Nat`.
* A Python `dict` is an insertion-ordered association list with pairwise
  distinct keys; `d[k] = v` overwrites in place when `k` is present and
  appends otherwise, `del d[k]` removes the (unique) binding of `k`.
* `hashlib.md5(key.encode()).hexdigest()` is modelled by an arbitrary
  deterministic function `h : String → String` over which all cache theorems
  are universally quantified (the spec declares collisions are treated as
  identical keys and no collision-correctness is required).
* Python floats are modelled as exact rationals `ℚ`; `round(x, 2)` as
  `round (x * 100) / 100`.  The claims never exercise an exact half-way
  rounding case, so the banker's-rounding difference is immaterial.
* `Optional[int]` arguments are `Option Nat`; Python truthiness of `ttl`
  (`ttl or self.default_ttl`) maps `none` and `some 0` to the default.
-/

/-- `CacheEntry` from cache_service.py: a stored value with its creation and
expiry timestamps.  The constructor computes `expires_at = created_at + ttl`. -/
structure CacheEntry (α : Type) where
  value : α
  created_at : Nat
  expires_at : Nat
deriving DecidableEq

/-- `CacheEntry.__init__`: `created_at = now`, `expires_at = now + ttl_seconds`. -/
def CacheEntry.make (v : α) (now ttl_seconds : Nat) : CacheEntry α :=
  ⟨v, now, now + ttl_seconds⟩

/-- `CacheEntry.is_expired`: `datetime.now() > self.expires_at`. -/
def CacheEntry.is_expired (e : CacheEntry α) (now : Nat) : Bool :=
  e.expires_at < now

/-- Python `dict` assignment `m[k] = e`: overwrite in place if the key is
present, else append at the end (insertion order). -/
def listInsert (m : List (String × CacheEntry α)) (k : String) (e : CacheEntry α) :
    List (String × CacheEntry α) :=
  if m.any (fun p => p.1 = k) then
    m.map (fun p => if p.1 = k then (k, e) else p)
  else
    m ++ [(k, e)]

/-- Python `del m[k]`: remove the binding of `k` (the first one, which is the
only one since dict keys are distinct). -/
def listErase (m : List (String × CacheEntry α)) (k : String) :
    List (String × CacheEntry α) :=
  m.eraseP (fun p => p.1 == k)

/-- `SimpleCache` from cache_service.py: entry map, default TTL, capacity
bound and hit/miss counters. -/
structure SimpleCache (α : Type) where
  cache : List (String × CacheEntry α)
  default_ttl : Nat
  max_size : Nat
  hit_count : Nat
  miss_count : Nat

/-- `SimpleCache.__init__(default_ttl, max_size)`: empty map, zero counters. -/
def SimpleCache.init (default_ttl max_size : Nat) : SimpleCache α :=
  ⟨[], default_ttl, max_size, 0, 0⟩

/-- `SimpleCache._cleanup_expired`: delete every expired entry.  Iterating
`del` over the expired keys of a dict with distinct keys leaves exactly the
non-expired entries, i.e. a filter. -/
def SimpleCache.cleanup_expired (c : SimpleCache α) (now : Nat) : SimpleCache α :=
  { c with cache := c.cache.filter (fun p => !(p.2.is_expired now)) }

/-- The comparison key of `_evict_oldest`'s sort: `lambda x: x[1].created_at`. -/
def byCreatedAt (p q : String × CacheEntry α) : Prop :=
  p.2.created_at ≤ q.2.created_at

instance : DecidableRel (byCreatedAt (α := α)) :=
  fun p q => Nat.decLe p.2.created_at q.2.created_at

instance : IsTotal (String × CacheEntry α) byCreatedAt :=
  ⟨fun a b => Nat.le_total a.2.created_at b.2.created_at⟩

instance : IsTrans (String × CacheEntry α) byCreatedAt :=
  ⟨fun _ _ _ hab hbc => Nat.le_trans hab hbc⟩

/-- `SimpleCache._evict_oldest`: when `len(cache) >= max_size`, sort the
entries by creation time (Python's `sorted` is stable, as is insertion sort)
and delete the first `max(1, max_size // 10)` of them. -/
def SimpleCache.evict_oldest (c : SimpleCache α) : SimpleCache α :=
  if c.max_size ≤ c.cache.length then
    let sorted_entries := c.cache.insertionSort byCreatedAt
    let num_to_evict := max 1 (c.max_size / 10)
    let evictKeys := (sorted_entries.take num_to_evict).map Prod.fst
    { c with cache := evictKeys.foldl (fun m k => listErase m k) c.cache }
  else
    c

/-- `SimpleCache.get(key)`: hash the key, miss on absence, lazily delete and
miss on expiry, otherwise hit and return the stored value. -/
def SimpleCache.get (h : String → String) (c : SimpleCache α) (now : Nat)
    (key : String) : Option α × SimpleCache α :=
  let cache_key := h key
  match c.cache.lookup cache_key with
  | none => (none, { c with miss_count := c.miss_count + 1 })
  | some entry =>
    if entry.is_expired now then
      (none, { c with cache := listErase c.cache cache_key,
                      miss_count := c.miss_count + 1 })
    else
      (some entry.value, { c with hit_count := c.hit_count + 1 })

/-- `ttl = ttl or self.default_ttl`: `None` and `0` are falsy. -/
def effectiveTtl (c : SimpleCache α) (ttl : Option Nat) : Nat :=
  match ttl with
  | none => c.default_ttl
  | some t => if t = 0 then c.default_ttl else t

/-- `SimpleCache.set(key, value, ttl)`: cleanup expired entries, evict the
oldest batch if still full, then insert/overwrite the new entry. -/
def SimpleCache.set (h : String → String) (c : SimpleCache α) (now : Nat)
    (key : String) (value : α) (ttl : Option Nat) : SimpleCache α :=
  let cache_key := h key
  let ttl' := effectiveTtl c ttl
  let c1 := c.cleanup_expired now
  let c2 := c1.evict_oldest
  { c2 with cache := listInsert c2.cache cache_key (CacheEntry.make value now ttl') }

/-- `SimpleCache.delete(key)`: remove if present, report whether it existed. -/
def SimpleCache.delete (h : String → String) (c : SimpleCache α) (key : String) :
    Bool × SimpleCache α :=
  let cache_key := h key
  if c.cache.any (fun p => p.1 = cache_key) then
    (true, { c with cache := listErase c.cache cache_key })
  else
    (false, c)

/-- `SimpleCache.clear()`: drop all entries, reset both counters. -/
def SimpleCache.clear (c : SimpleCache α) : SimpleCache α :=
  { c with cache := [], hit_count := 0, miss_count := 0 }

/-- One externally invocable cache operation, with the timestamp at which it
runs (timestamps are data; the claims quantify over all of them). -/
inductive CacheOp (α : Type) where
  | opGet (now : Nat) (key : String)
  | opSet (now : Nat) (key : String) (value : α) (ttl : Option Nat)
  | opDelete (key : String)

/-- Apply one operation to a cache state. -/
def applyOp (h : String → String) (c : SimpleCache α) : CacheOp α → SimpleCache α
  | .opGet now key => (c.get h now key).2
  | .opSet now key value ttl => c.set h now key value ttl
  | .opDelete key => (c.delete h key).2

/-- Run a sequence of operations from a state. -/
def runOps (h : String → String) (c : SimpleCache α) (ops : List (CacheOp α)) :
    SimpleCache α :=
  ops.foldl (applyOp h) c

/-! ### Size bound lemmas (claim C1) -/

theorem length_listErase_le (m : List (String × CacheEntry α)) (k : String) :
    (listErase m k).length ≤ m.length :=
  List.length_eraseP_le m

theorem length_foldlErase_le (ks : List String) (m : List (String × CacheEntry α)) :
    (ks.foldl (fun m k => listErase m k) m).length ≤ m.length := by
  induction ks generalizing m with
  | nil => simp
  | cons k ks ih =>
    simp only [List.foldl_cons]
    exact le_trans (ih (listErase m k)) (length_listErase_le m k)

theorem length_listInsert_le (m : List (String × CacheEntry α)) (k : String)
    (e : CacheEntry α) : (listInsert m k e).length ≤ m.length + 1 := by
  unfold listInsert
  split
  · simp
  · simp

theorem cleanup_expired_length_le (c : SimpleCache α) (now : Nat) :
    (c.cleanup_expired now).cache.length ≤ c.cache.length :=
  List.length_filter_le _ _

theorem cleanup_expired_max_size (c : SimpleCache α) (now : Nat) :
    (c.cleanup_expired now).max_size = c.max_size := rfl

theorem evict_oldest_max_size (c : SimpleCache α) :
    c.evict_oldest.max_size = c.max_size := by
  unfold SimpleCache.evict_oldest
  split <;> rfl

/-- When the cache is within its bound and the bound is positive, eviction
brings the size strictly below the bound (it removes at least one entry when
triggered). -/
theorem evict_oldest_length_lt (c : SimpleCache α) (h1 : 1 ≤ c.max_size)
    (h2 : c.cache.length ≤ c.max_size) :
    c.evict_oldest.cache.length < c.max_size := by
  unfold SimpleCache.evict_oldest
  split
  case isFalse hfull => exact Nat.lt_of_not_le hfull
  case isTrue hfull =>
    have hperm : List.Perm (c.cache.insertionSort byCreatedAt) c.cache :=
      List.perm_insertionSort byCreatedAt c.cache
    have hne : c.cache.insertionSort byCreatedAt ≠ [] := by
      intro hnil
      have : c.cache.length = 0 := by
        simpa [hnil] using hperm.length_eq.symm
      omega
    obtain ⟨p, rest, hcons⟩ := List.exists_cons_of_ne_nil hne
    have hp_mem : p ∈ c.cache := hperm.mem_iff.mp (by simp [hcons])
    have htake : (c.cache.insertionSort byCreatedAt).take (max 1 (c.max_size / 10)) =
        p :: rest.take (max 1 (c.max_size / 10) - 1) := by
      rw [hcons]
      cases hmax : max 1 (c.max_size / 10) with
      | zero => omega
      | succ n => simp
    have herase : (listErase c.cache p.1).length = c.cache.length - 1 :=
      List.length_eraseP_of_mem hp_mem (by simp)
    simp only [htake, List.map_cons, List.foldl_cons]
    have hle := length_foldlErase_le ((rest.take (max 1 (c.max_size / 10) - 1)).map Prod.fst)
      (listErase c.cache p.1)
    omega

/-- `set` keeps the size within a positive bound whenever it was within the
bound before the call. -/
theorem set_length_le (h : String → String) (c : SimpleCache α) (now : Nat)
    (key : String) (value : α) (ttl : Option Nat)
    (h1 : 1 ≤ c.max_size) (h2 : c.cache.length ≤ c.max_size) :
    (c.set h now key value ttl).cache.length ≤ c.max_size := by
  have hc1 : (c.cleanup_expired now).cache.length ≤ c.max_size :=
    le_trans (cleanup_expired_length_le c now) h2
  have hev : (c.cleanup_expired now).evict_oldest.cache.length < c.max_size := by
    have := evict_oldest_length_lt (c.cleanup_expired now)
      (by rw [cleanup_expired_max_size]; exact h1)
      (by rw [cleanup_expired_max_size]; exact hc1)
    rwa [cleanup_expired_max_size] at this
  have := length_listInsert_le (c.cleanup_expired now).evict_oldest.cache (h key)
    (CacheEntry.make value now (effectiveTtl c ttl))
  show (listInsert _ _ _).length ≤ c.max_size
  omega

theorem applyOp_max_size (h : String → String) (c : SimpleCache α) (op : CacheOp α) :
    (applyOp h c op).max_size = c.max_size := by
  cases op with
  | opGet now key =>
    show (c.get h now key).2.max_size = c.max_size
    simp only [SimpleCache.get]
    cases c.cache.lookup (h key) with
    | none => rfl
    | some e => by_cases he : e.is_expired now = true <;> simp [he]
  | opSet now key value ttl =>
    show (c.cleanup_expired now).evict_oldest.max_size = c.max_size
    rw [evict_oldest_max_size, cleanup_expired_max_size]
  | opDelete key =>
    show (c.delete h key).2.max_size = c.max_size
    simp only [SimpleCache.delete]
    split <;> rfl

theorem applyOp_length_le (h : String → String) (c : SimpleCache α) (op : CacheOp α)
    (h1 : 1 ≤ c.max_size) (h2 : c.cache.length ≤ c.max_size) :
    (applyOp h c op).cache.length ≤ c.max_size := by
  cases op with
  | opGet now key =>
    show (c.get h now key).2.cache.length ≤ c.max_size
    simp only [SimpleCache.get]
    cases c.cache.lookup (h key) with
    | none => exact h2
    | some e =>
      by_cases he : e.is_expired now = true
      · simpa [he] using le_trans (length_listErase_le c.cache (h key)) h2
      · simpa [he] using h2
  | opSet now key value ttl => exact set_length_le h c now key value ttl h1 h2
  | opDelete key =>
    show (c.delete h key).2.cache.length ≤ c.max_size
    simp only [SimpleCache.delete]
    split
    · exact le_trans (length_listErase_le c.cache (h key)) h2
    · exact h2

theorem runOps_length_le (h : String → String) (c : SimpleCache α)
    (ops : List (CacheOp α)) (h1 : 1 ≤ c.max_size)
    (h2 : c.cache.length ≤ c.max_size) :
    (runOps h c ops).cache.length ≤ c.max_size ∧ (runOps h c ops).max_size = c.max_size := by
  induction ops generalizing c with
  | nil => exact ⟨h2, rfl⟩
  | cons op ops ih =>
    have hms := applyOp_max_size h c op
    have hlen := applyOp_length_le h c op h1 h2
    have := ih (applyOp h c op) (hms ▸ h1) (hms ▸ hlen)
    simpa [runOps, hms] using this

/-- C1 (amended: the bound requires `max_size ≥ 1`): starting from a fresh
`SimpleCache`, after any sequence of get/set/delete operations ending in a
`set` call, the entry map holds at most `max_size` entries — eviction before
insert enforces the bound. -/
theorem C1_size_bounded_after_set (h : String → String) (default_ttl ms : Nat)
    (ops : List (CacheOp α)) (now : Nat) (key : String) (value : α)
    (ttl : Option Nat) (h1 : 1 ≤ ms) :
    (runOps h (SimpleCache.init default_ttl ms)
      (ops ++ [CacheOp.opSet now key value ttl])).cache.length ≤ ms := by
  have hrun := runOps_length_le h (SimpleCache.init default_ttl ms) ops h1
    (by simp [SimpleCache.init])
  have hfold : runOps h (SimpleCache.init default_ttl ms)
      (ops ++ [CacheOp.opSet now key value ttl]) =
      (runOps h (SimpleCache.init default_ttl ms) ops).set h now key value ttl := by
    simp [runOps, List.foldl_append, applyOp]
  rw [hfold]
  have := set_length_le h (runOps h (SimpleCache.init default_ttl ms) ops)
    now key value ttl (hrun.2 ▸ h1) (hrun.2 ▸ hrun.1)
  rwa [hrun.2] at this

theorem C1_size_bounded_after_set_witness :
    1 ≤ 1 ∧ (runOps (fun s => s) (SimpleCache.init (α := String) 3600 1)
      ([CacheOp.opSet 0 "a" "x" none] ++ [CacheOp.opSet 1 "b" "y" none])).cache.length ≤ 1 :=
  ⟨by decide,
   C1_size_bounded_after_set (fun s => s) 3600 1 [CacheOp.opSet 0 "a" "x" none]
     1 "b" "y" none (by decide)⟩

/-- C1 counterexample: with `max_size = 0` (a value the claim's "any
max_size" includes) a single `set` call leaves one entry in the map,
exceeding the bound — eviction never removes anything from an empty map. -/
theorem C1_counterexample :
    ¬ (runOps (fun s => s) (SimpleCache.init (α := String) 3600 0)
        [CacheOp.opSet 0 "k" "v" none]).cache.length ≤ 0 := by
  decide

/-! ### Lookup-after-insert lemmas (claims C3, C9) -/

theorem lookup_listInsert (m : List (String × CacheEntry α)) (k : String)
    (e : CacheEntry α) : (listInsert m k e).lookup k = some e := by
  unfold listInsert
  split
  case isTrue hany =>
    induction m with
    | nil => simp at hany
    | cons p t ih =>
      obtain ⟨p1, p2⟩ := p
      by_cases hp : p1 = k
      · simp [hp]
      · have hbeq : (k == p1) = false := beq_eq_false_iff_ne.mpr fun hkp => hp hkp.symm
        have ht : (t.any fun q => decide (q.1 = k)) = true := by
          simpa [hp] using hany
        simpa [List.lookup_cons, hbeq, hp] using ih ht
  case isFalse hany =>
    induction m with
    | nil => simp
    | cons p t ih =>
      obtain ⟨p1, p2⟩ := p
      have hp : ¬ p1 = k := fun hk => hany (by simp [hk])
      have hbeq : (k == p1) = false := beq_eq_false_iff_ne.mpr fun hkp => hp hkp.symm
      have ht : ¬ (t.any fun q => decide (q.1 = k)) = true := fun hk =>
        hany (by simp [hk])
      simpa [List.lookup_cons, hbeq] using ih ht

/-- C3: within the TTL window, `get` right after `set` on the same key
returns the stored value and increments the hit counter; `get` on an absent
key increments the miss counter and leaves the map unchanged; `get` on an
expired entry increments the miss counter, removes the entry from storage,
and returns absent. -/
theorem C3_get_after_set (h : String → String) :
    (∀ (st : SimpleCache α) (now nowG : Nat) (k : String) (v : α) (t : Nat),
      0 < t → nowG ≤ now + t →
      ((st.set h now k v (some t)).get h nowG k).1 = some v ∧
      ((st.set h now k v (some t)).get h nowG k).2.hit_count =
        (st.set h now k v (some t)).hit_count + 1) ∧
    (∀ (st : SimpleCache α) (now : Nat) (k : String),
      st.cache.lookup (h k) = none →
      (st.get h now k).1 = none ∧
      (st.get h now k).2.miss_count = st.miss_count + 1 ∧
      (st.get h now k).2.cache = st.cache) ∧
    (∀ (st : SimpleCache α) (now : Nat) (k : String) (e : CacheEntry α),
      st.cache.lookup (h k) = some e → e.expires_at < now →
      (st.get h now k).1 = none ∧
      (st.get h now k).2.miss_count = st.miss_count + 1 ∧
      (st.get h now k).2.cache = listErase st.cache (h k)) := by
  refine ⟨fun st now nowG k v t ht hle => ?_,
          fun st now k hnone => ?_,
          fun st now k e hsome hexp => ?_⟩
  · have httl : effectiveTtl st (some t) = t := by
      simp [effectiveTtl, Nat.pos_iff_ne_zero.mp ht]
    have hlk : (st.set h now k v (some t)).cache.lookup (h k) =
        some (CacheEntry.make v now t) := by
      show (listInsert _ (h k) (CacheEntry.make v now (effectiveTtl st (some t)))).lookup
        (h k) = _
      rw [httl]
      exact lookup_listInsert _ _ _
    have hne : ¬ (now + t < nowG) := Nat.not_lt.mpr hle
    constructor
    · show ((st.set h now k v (some t)).get h nowG k).1 = some v
      simp [SimpleCache.get, hlk, CacheEntry.make, CacheEntry.is_expired, hne]
    · show ((st.set h now k v (some t)).get h nowG k).2.hit_count = _
      simp [SimpleCache.get, hlk, CacheEntry.make, CacheEntry.is_expired, hne]
  · refine ⟨?_, ?_, ?_⟩ <;> simp [SimpleCache.get, hnone]
  · have he : e.is_expired now = true := by
      simp [CacheEntry.is_expired, hexp]
    refine ⟨?_, ?_, ?_⟩ <;> simp [SimpleCache.get, hsome, he]

theorem C3_get_after_set_witness :
    ((((SimpleCache.init (α := String) 3600 5).set (fun s => s) 0 "k" "v"
      (some 5)).get (fun s => s) 3 "k").1 = some "v" ∧
     (((SimpleCache.init (α := String) 3600 5).set (fun s => s) 0 "k" "v"
      (some 5)).get (fun s => s) 3 "k").2.hit_count =
       ((SimpleCache.init (α := String) 3600 5).set (fun s => s) 0 "k" "v"
      (some 5)).hit_count + 1) ∧
    ((SimpleCache.init (α := String) 3600 5).get (fun s => s) 0 "q").1 = none := by
  refine ⟨(C3_get_after_set (fun s => s)).1 (SimpleCache.init 3600 5) 0 3 "k" "v" 5
    (by decide) (by decide), ?_⟩
  exact (((C3_get_after_set (fun s => s)).2.1 (SimpleCache.init 3600 5) 0 "q")
    (by rfl)).1

/-! ### Content cache and keying (claims C5, C9) -/

/-- One character of `json.dumps` string escaping (quote, backslash and
control characters; the keying claims depend only on this being a fixed
deterministic function). -/
def jsonEscapeChar (c : Char) : String :=
  if c = '\\' then "\\\\"
  else if c = '"' then "\\\""
  else if c = '\n' then "\\n"
  else if c = '\t' then "\\t"
  else if c = '\r' then "\\r"
  else if c.toNat < 32 then
    "\\u00" ++ (if c.toNat < 16 then "0" else "") ++ String.mk (Nat.toDigits 16 c.toNat)
  else
    String.singleton c

/-- `json.dumps` of a string value. -/
def jsonString (s : String) : String :=
  "\"" ++ String.join (s.data.map jsonEscapeChar) ++ "\""

/-- `json.dumps` of a list of strings (default separator `", "`). -/
def jsonStringList (l : List String) : String :=
  "[" ++ String.intercalate ", " (l.map jsonString) ++ "]"

/-- `ContentCache.generate_content_key`: serialize
`{prompt, tone, length, keywords: sorted(keywords or []), platform}` with
`json.dumps(key_data, sort_keys=True)`; with keys sorted alphabetically the
field order is keywords, length, platform, prompt, tone.  `None` keywords are
modelled as `[]` (Python's `keywords or []` sends both to `[]`). -/
def generate_content_key (prompt tone : String) (length : Nat)
    (keywords : List String) (platform : Option String) : String :=
  "\x7b\"keywords\": " ++ jsonStringList (keywords.insertionSort (fun a b => a ≤ b)) ++
  ", \"length\": " ++ toString length ++
  ", \"platform\": " ++ (match platform with
    | none => "null"
    | some p => jsonString p) ++
  ", \"prompt\": " ++ jsonString prompt ++
  ", \"tone\": " ++ jsonString tone ++ "\x7d"

/-- `ContentCache`: a `SimpleCache` specialized with `max_size = 500`. -/
structure ContentCache (α : Type) where
  cache : SimpleCache α

/-- `ContentCache.__init__(ttl)`. -/
def ContentCache.init (ttl : Nat) : ContentCache α :=
  ⟨SimpleCache.init ttl 500⟩

/-- `ContentCache.get_content`: pass-through `get` on the derived key. -/
def ContentCache.get_content (h : String → String) (cc : ContentCache α)
    (now : Nat) (prompt tone : String) (length : Nat) (keywords : List String)
    (platform : Option String) : Option α × ContentCache α :=
  let r := cc.cache.get h now (generate_content_key prompt tone length keywords platform)
  (r.1, ⟨r.2⟩)

/-- `ContentCache.cache_content`: pass-through `set` on the derived key. -/
def ContentCache.cache_content (h : String → String) (cc : ContentCache α)
    (now : Nat) (prompt tone : String) (length : Nat) (content_data : α)
    (keywords : List String) (platform : Option String) (ttl : Option Nat) :
    ContentCache α :=
  ⟨cc.cache.set h now (generate_content_key prompt tone length keywords platform)
    content_data ttl⟩

/-- C5: the content-cache key depends on the keywords only through their
sorted order, so any permutation of the keyword list yields the same key. -/
theorem C5_key_keyword_order_insensitive (prompt tone : String) (length : Nat)
    (kw1 kw2 : List String) (platform : Option String)
    (hperm : List.Perm kw1 kw2) :
    generate_content_key prompt tone length kw1 platform =
    generate_content_key prompt tone length kw2 platform := by
  unfold generate_content_key
  have hsorted : kw1.insertionSort (fun a b => a ≤ b) =
      kw2.insertionSort (fun a b => a ≤ b) :=
    List.eq_of_perm_of_sorted
      ((List.perm_insertionSort _ kw1).trans
        (hperm.trans (List.perm_insertionSort _ kw2).symm))
      (List.sorted_insertionSort _ kw1) (List.sorted_insertionSort _ kw2)
  rw [hsorted]

theorem C5_key_keyword_order_insensitive_witness :
    generate_content_key "p" "t" 100 ["a", "b"] none =
    generate_content_key "p" "t" 100 ["b", "a"] none :=
  C5_key_keyword_order_insensitive "p" "t" 100 ["a", "b"] ["b", "a"] none (by decide)

/-- C9: an explicit TTL of `0` is falsy in `ttl = ttl or self.default_ttl`,
so both `SimpleCache.set` and `ContentCache.cache_content` behave exactly as
if no TTL had been passed and store the entry with the default TTL (expiring
at `now + default_ttl`), not an immediately-expired entry. -/
theorem C9_zero_ttl_uses_default (h : String → String) :
    (∀ (st : SimpleCache α) (now : Nat) (k : String) (v : α),
      st.set h now k v (some 0) = st.set h now k v none ∧
      (st.set h now k v (some 0)).cache.lookup (h k) =
        some (CacheEntry.make v now st.default_ttl)) ∧
    (∀ (cc : ContentCache α) (now : Nat) (prompt tone : String) (length : Nat)
      (cd : α) (keywords : List String) (platform : Option String),
      cc.cache_content h now prompt tone length cd keywords platform (some 0) =
        cc.cache_content h now prompt tone length cd keywords platform none ∧
      (cc.cache_content h now prompt tone length cd keywords platform
        (some 0)).cache.cache.lookup
          (h (generate_content_key prompt tone length keywords platform)) =
        some (CacheEntry.make cd now cc.cache.default_ttl)) := by
  have hset : ∀ (st : SimpleCache α) (now : Nat) (k : String) (v : α),
      st.set h now k v (some 0) = st.set h now k v none ∧
      (st.set h now k v (some 0)).cache.lookup (h k) =
        some (CacheEntry.make v now st.default_ttl) := by
    intro st now k v
    constructor
    · rfl
    · show (listInsert _ (h k) (CacheEntry.make v now (effectiveTtl st (some 0)))).lookup
        (h k) = _
      exact lookup_listInsert _ _ _
    
  exact ⟨hset, fun cc now prompt tone length cd keywords platform =>
    ⟨congrArg ContentCache.mk (hset cc.cache now _ cd).1, (hset cc.cache now _ cd).2⟩⟩

/-! ### Characterization of `set` (claim C2) -/

theorem mem_listInsert_ne (m : List (String × CacheEntry α)) (k : String)
    (e : CacheEntry α) (p : String × CacheEntry α) (hp : p.1 ≠ k) :
    p ∈ listInsert m k e ↔ p ∈ m := by
  unfold listInsert
  split
  · constructor
    · intro hmem
      obtain ⟨q, hq, hfq⟩ := List.mem_map.mp hmem
      by_cases hqk : q.1 = k
      · rw [if_pos hqk] at hfq
        exact absurd (congrArg Prod.fst hfq.symm) hp
      · rw [if_neg hqk] at hfq
        exact hfq ▸ hq
    · intro hmem
      exact List.mem_map.mpr ⟨p, hmem, if_neg hp⟩
  · rw [List.mem_append]
    constructor
    · rintro (hmem | hmem)
      · exact hmem
      · simp only [List.mem_singleton] at hmem
        exact absurd (congrArg Prod.fst hmem) hp
    · exact Or.inl

theorem listErase_eq_filter (m : List (String × CacheEntry α)) (k : String)
    (hnd : (m.map Prod.fst).Nodup) :
    listErase m k = m.filter (fun p => !(p.1 == k)) := by
  induction m with
  | nil => rfl
  | cons p t ih =>
    simp only [List.map_cons, List.nodup_cons] at hnd
    by_cases hp : p.1 = k
    · rw [listErase, List.eraseP_cons_of_pos (by simp [hp]), List.filter_cons_of_neg
        (by simp [hp])]
      symm
      rw [List.filter_eq_self]
      intro q hq
      have : q.1 ≠ k := fun hqk => hnd.1 (hp ▸ hqk ▸ List.mem_map_of_mem Prod.fst hq)
      simpa using this
    · rw [listErase, List.eraseP_cons_of_neg (by simp [hp]), List.filter_cons_of_pos
        (by simp [hp])]
      rw [← listErase, ih hnd.2]

theorem nodupKeys_listErase (m : List (String × CacheEntry α)) (k : String)
    (hnd : (m.map Prod.fst).Nodup) : ((listErase m k).map Prod.fst).Nodup :=
  hnd.sublist ((List.eraseP_sublist m).map Prod.fst)

theorem foldlErase_eq_filter (ks : List String) (m : List (String × CacheEntry α))
    (hnd : (m.map Prod.fst).Nodup) :
    ks.foldl (fun m k => listErase m k) m =
      m.filter (fun p => !(decide (p.1 ∈ ks))) := by
  induction ks generalizing m with
  | nil => simp
  | cons k ks ih =>
    simp only [List.foldl_cons]
    rw [ih (listErase m k) (nodupKeys_listErase m k hnd), listErase_eq_filter m k hnd,
      List.filter_filter]
    apply List.filter_congr
    intro p _
    by_cases h1 : p.1 = k <;> by_cases h2 : p.1 ∈ ks <;> simp [h1, h2]

/-- C2 (amended: a triggered eviction removes `min(post-cleanup size,
max(1, max_size / 10))` entries, since fewer entries than the nominal batch
size may exist): `set(key, value, ttl)` first removes exactly the expired
entries from the whole map; then, if the remaining size is still at or above
`max_size`, it removes a batch of entries of minimal `created_at` of exactly
that cardinality; finally it inserts/overwrites the entry for the key with
`expires_at = now + ttl`.  `hnd` is the Python dict invariant (distinct
keys in the map). -/
theorem C2_set_phases (h : String → String) (st : SimpleCache α) (now : Nat)
    (k : String) (v : α) (t : Nat) (ht : t ≠ 0)
    (hnd : (st.cache.map Prod.fst).Nodup) :
    (st.set h now k v (some t)).cache.lookup (h k) =
      some (CacheEntry.make v now t) ∧
    ((st.cache.filter (fun p => !(p.2.is_expired now))).length < st.max_size →
      ∀ p : String × CacheEntry α, p.1 ≠ h k →
        (p ∈ (st.set h now k v (some t)).cache ↔
         p ∈ st.cache.filter (fun p => !(p.2.is_expired now)))) ∧
    (st.max_size ≤ (st.cache.filter (fun p => !(p.2.is_expired now))).length →
      ∃ E : List (String × CacheEntry α),
        E.length = min (max 1 (st.max_size / 10))
          (st.cache.filter (fun p => !(p.2.is_expired now))).length ∧
        (∀ e ∈ E, e ∈ st.cache.filter (fun p => !(p.2.is_expired now))) ∧
        (∀ p : String × CacheEntry α, p.1 ≠ h k →
          (p ∈ (st.set h now k v (some t)).cache ↔
           p ∈ st.cache.filter (fun p => !(p.2.is_expired now)) ∧ p ∉ E)) ∧
        (∀ e ∈ E, ∀ q ∈ st.cache.filter (fun p => !(p.2.is_expired now)),
          q ∉ E → e.2.created_at ≤ q.2.created_at)) := by
  have httl : effectiveTtl st (some t) = t := by simp [effectiveTtl, ht]
  have hres : (st.set h now k v (some t)).cache =
      listInsert ((st.cleanup_expired now).evict_oldest).cache (h k)
        (CacheEntry.make v now t) := by
    show listInsert _ (h k) (CacheEntry.make v now (effectiveTtl st (some t))) = _
    rw [httl]
  refine ⟨?_, ?_, ?_⟩
  · rw [hres]
    exact lookup_listInsert _ _ _
  · intro hlt p hp
    have hevict : (st.cleanup_expired now).evict_oldest = st.cleanup_expired now := by
      unfold SimpleCache.evict_oldest
      rw [if_neg (show ¬ (st.cleanup_expired now).max_size ≤
        (st.cleanup_expired now).cache.length from Nat.not_le.mpr hlt)]
    rw [hres, hevict]
    exact mem_listInsert_ne _ _ _ p hp
  · intro hge
    have hndC : ((st.cache.filter (fun p => !(p.2.is_expired now))).map Prod.fst).Nodup :=
      hnd.sublist ((List.filter_sublist _).map Prod.fst)
    have hperm : List.Perm
        ((st.cache.filter (fun p => !(p.2.is_expired now))).insertionSort byCreatedAt)
        (st.cache.filter (fun p => !(p.2.is_expired now))) :=
      List.perm_insertionSort _ _
    have hEsub : ∀ e ∈ ((st.cache.filter
        (fun p => !(p.2.is_expired now))).insertionSort byCreatedAt).take
          (max 1 (st.max_size / 10)),
        e ∈ st.cache.filter (fun p => !(p.2.is_expired now)) :=
      fun e he => hperm.subset (List.take_subset _ _ he)
    have hevict : ((st.cleanup_expired now).evict_oldest).cache =
        ((((st.cache.filter (fun p => !(p.2.is_expired now))).insertionSort
            byCreatedAt).take (max 1 (st.max_size / 10))).map Prod.fst).foldl
          (fun m k => listErase m k)
          (st.cache.filter (fun p => !(p.2.is_expired now))) := by
      unfold SimpleCache.evict_oldest
      rw [if_pos (show (st.cleanup_expired now).max_size ≤
        (st.cleanup_expired now).cache.length from hge)]
      rfl
    refine ⟨((st.cache.filter (fun p => !(p.2.is_expired now))).insertionSort
      byCreatedAt).take (max 1 (st.max_size / 10)), ?_, hEsub, ?_, ?_⟩
    · rw [List.length_take, hperm.length_eq]
    · intro p hp
      rw [hres, mem_listInsert_ne _ _ _ p hp, hevict, foldlErase_eq_filter _ _ hndC,
        List.mem_filter]
      constructor
      · rintro ⟨hpC, hpk⟩
        simp only [Bool.not_eq_true', decide_eq_false_iff_not] at hpk
        refine ⟨hpC, fun hpE => ?_⟩
        exact hpk (List.mem_map_of_mem Prod.fst hpE)
      · rintro ⟨hpC, hpE⟩
        refine ⟨hpC, ?_⟩
        simp only [Bool.not_eq_true', decide_eq_false_iff_not]
        intro hmem
        obtain ⟨e, heE, heq⟩ := List.mem_map.mp hmem
        have : e = p := List.inj_on_of_nodup_map hndC (hEsub e heE) hpC heq
        exact hpE (this ▸ heE)
    · intro e heE q hqC hqE
      have hq_sorted : q ∈ (st.cache.filter
          (fun p => !(p.2.is_expired now))).insertionSort byCreatedAt :=
        hperm.mem_iff.mpr hqC
      have hsorted : List.Sorted byCreatedAt
          ((st.cache.filter (fun p => !(p.2.is_expired now))).insertionSort
            byCreatedAt) := List.sorted_insertionSort _ _
      rw [← List.take_append_drop (max 1 (st.max_size / 10))
        ((st.cache.filter (fun p => !(p.2.is_expired now))).insertionSort
          byCreatedAt)] at hq_sorted hsorted
      rcases List.mem_append.mp hq_sorted with hq_take | hq_drop
      · exact absurd hq_take hqE
      · exact (List.pairwise_append.mp hsorted).2.2 e heE q hq_drop

theorem C2_set_phases_witness :
    ((SimpleCache.mk (α := String) [("a", CacheEntry.mk "old" 0 100)] 3600 1 0 0).set
      (fun s => s) 5 "b" "new" (some 7)).cache.lookup "b" =
      some (CacheEntry.make "new" 5 7) :=
  (C2_set_phases (fun s => s)
    (SimpleCache.mk [("a", CacheEntry.mk "old" 0 100)] 3600 1 0 0) 5 "b" "new" 7
    (by decide) (by decide)).1

/-- C2 counterexample: with `max_size = 0` and an empty map, the eviction
trigger (post-cleanup size at or above `max_size`) fires, but the eviction
phase removes `0` entries, not the `max(1, max_size / 10) = 1` entries the
claim requires. -/
theorem C2_counterexample :
    (SimpleCache.init (α := String) 3600 0).max_size ≤
      ((SimpleCache.init (α := String) 3600 0).cache.filter
        (fun p => !(p.2.is_expired 0))).length ∧
    ¬ ((((SimpleCache.init (α := String) 3600 0).cache.filter
          (fun p => !(p.2.is_expired 0))).length -
        (((SimpleCache.init (α := String) 3600 0).cleanup_expired 0).evict_oldest).cache.length) =
        max 1 ((SimpleCache.init (α := String) 3600 0).max_size / 10)) := by
  decide

/-! ### Content analytics (content_analytics.py) -/

/-- Whitespace for Python `str.split()` with no argument. -/
def isPySpace (c : Char) : Bool :=
  c == ' ' || c == '\t' || c == '\n' || c == '\r' || c == '\x0b' || c == '\x0c'

/-- Python `content.split()`: split on whitespace runs, discarding empty
fragments. -/
def pySplit (content : String) : List (List Char) :=
  (content.data.splitOnP isPySpace).filter (fun w => w ≠ [])

/-- Python `str.strip()`. -/
def pyStrip (w : List Char) : List Char :=
  ((w.dropWhile isPySpace).reverse.dropWhile isPySpace).reverse

/-- `re.split(r'[.!?]+', content)` followed by the source's
strip-and-keep-nonempty comprehension.  Splitting on each single punctuation
character instead of on maximal runs only adds empty fragments, which the
filter discards, so the result is the same. -/
def pySentences (content : String) : List (List Char) :=
  ((content.data.splitOnP (fun c => c == '.' || c == '!' || c == '?')).map
    pyStrip).filter (fun s => s ≠ [])

/-- Python `str.lower()` (the analysed texts are ASCII, where `Char.toLower`
coincides with Python). -/
def pyLower (s : String) : String :=
  String.mk (s.data.map Char.toLower)

/-- `ContentAnalytics._count_syllables`: count non-vowel→vowel transitions
over the lowered word, subtract one for a trailing `e`, floor at 1.  (The
Python `-= 1` can only fire when a vowel was counted, so `Nat` subtraction is
exact.) -/
def count_syllables (word : List Char) : Nat :=
  let w := word.map Char.toLower
  let vowels : List Char := ['a', 'e', 'i', 'o', 'u', 'y']
  let n := (w.foldl (fun acc c =>
    let isV := vowels.contains c
    ((if isV && !acc.2 then acc.1 + 1 else acc.1), isV)) ((0 : Nat), false)).1
  let n := if w.getLast? = some 'e' then n - 1 else n
  if n = 0 then 1 else n

/-- Python `round(x, 2)` on exact rationals: `round (q * 100) / 100` (round
half up; no claim exercises an exact half-way case, where Python's float
rounding differs). -/
def round2 (q : ℚ) : ℚ :=
  ((round (q * 100) : ℤ) : ℚ) / 100

/-- The dictionary returned by `analyze_readability`. -/
structure ReadabilityResult where
  reading_ease_score : ℚ
  avg_words_per_sentence : ℚ
  total_words : Nat
  total_sentences : Nat
deriving DecidableEq

/-- `ContentAnalytics.analyze_readability`. -/
def analyze_readability (content : String) : ReadabilityResult :=
  let words := pySplit content
  let word_count := words.length
  let sentence_count := max (pySentences content).length 1
  let avg_words_per_sentence : ℚ := (word_count : ℚ) / (sentence_count : ℚ)
  let total_syllables := (words.map count_syllables).sum
  let avg_syllables_per_word : ℚ := (total_syllables : ℚ) / ((max word_count 1 : Nat) : ℚ)
  let reading_ease : ℚ :=
    206835 / 1000 - 1015 / 1000 * avg_words_per_sentence
      - 846 / 10 * avg_syllables_per_word
  let reading_ease := max 0 (min 100 reading_ease)
  { reading_ease_score := round2 reading_ease
    avg_words_per_sentence := round2 avg_words_per_sentence
    total_words := word_count
    total_sentences := sentence_count }

/-- `self.positive_keywords` from `ContentAnalytics.__init__`. -/
def positive_keywords : List String :=
  ["amazing", "excellent", "fantastic", "great", "outstanding",
   "wonderful", "perfect", "best", "love", "incredible"]

/-- `self.negative_keywords` from `ContentAnalytics.__init__`. -/
def negative_keywords : List String :=
  ["bad", "terrible", "awful", "worst", "hate",
   "disappointing", "poor", "failure", "useless"]

/-- `self.action_words` from `ContentAnalytics.__init__`. -/
def action_words : List String :=
  ["buy", "get", "discover", "learn", "start", "join",
   "subscribe", "download", "register", "click", "shop"]

/-- Python substring containment `sub in s`. -/
def pyContains (s sub : List Char) : Bool :=
  match s with
  | [] => sub.isEmpty
  | c :: t => sub.isPrefixOf (c :: t) || pyContains t sub

/-- The dictionary returned by `analyze_engagement_potential`. -/
structure EngagementResult where
  engagement_score : ℚ
  action_words_count : Nat
  positive_words_count : Nat
  negative_words_count : Nat
  has_questions : Bool
  question_count : Nat
  has_numbers : Bool
deriving DecidableEq

/-- `ContentAnalytics.analyze_engagement_potential`: presence counts over the
fixed word lists, question and digit checks, and the capped additive score
(all score contributions are integers, so float arithmetic is exact). -/
def analyze_engagement_potential (content : String) : EngagementResult :=
  let content_lower := (pyLower content).data
  let action_word_count :=
    (action_words.filter (fun w => pyContains content_lower w.data)).length
  let positive_count :=
    (positive_keywords.filter (fun w => pyContains content_lower w.data)).length
  let negative_count :=
    (negative_keywords.filter (fun w => pyContains content_lower w.data)).length
  let has_questions := content.data.any (fun c => c == '?')
  let question_count := content.data.count '?'
  let has_numbers := content.data.any Char.isDigit
  let score := 50 + min (action_word_count * 10) 30 + min (positive_count * 5) 15
    + question_count * 5 + (if has_numbers then 5 else 0)
  { engagement_score := round2 ((min score 100 : Nat) : ℚ)
    action_words_count := action_word_count
    positive_words_count := positive_count
    negative_words_count := negative_count
    has_questions := has_questions
    question_count := question_count
    has_numbers := has_numbers }

/-- Python `s.count(sub)`: non-overlapping substring occurrence count.
Structured with a fuel argument equal to `s.length` so that the definition is
structurally recursive (the scan consumes at least one character per step, so
the fuel never runs out before the text does). -/
def pyCountFuel : Nat → List Char → List Char → Nat
  | _, s, [] => s.length + 1
  | 0, _, _ => 0
  | fuel + 1, s, sub =>
    match s with
    | [] => 0
    | c :: t =>
      if sub.isPrefixOf (c :: t) then 1 + pyCountFuel fuel ((c :: t).drop sub.length) sub
      else pyCountFuel fuel t sub

/-- Python `s.count(sub)`. -/
def pyCount (s sub : List Char) : Nat :=
  pyCountFuel s.length s sub

/-- The dictionary returned by `analyze_keyword_density`.  The
`total_keyword_occurrences` key is absent (`none`) on the empty-keyword early
return and present (`some`) otherwise. -/
structure KeywordAnalysis where
  keyword_density : ℚ
  keywords_found : List String
  keyword_frequency : List (String × Nat)
  total_keyword_occurrences : Option Nat
deriving DecidableEq

/-- The accumulation loop of `analyze_keyword_density`: builds
`(keyword_frequency, keywords_found, total_keyword_count)` in keyword order,
keeping only keywords with a positive count. -/
def kwLoop (content_lower : List Char) : List String →
    List (String × Nat) × List String × Nat
  | [] => ([], [], 0)
  | kw :: rest =>
    let count := pyCount content_lower (pyLower kw).data
    let r := kwLoop content_lower rest
    if 0 < count then ((kw, count) :: r.1, kw :: r.2.1, count + r.2.2)
    else r

/-- `ContentAnalytics.analyze_keyword_density`. -/
def analyze_keyword_density (content : String) (keywords : List String) :
    KeywordAnalysis :=
  match keywords with
  | [] =>
    { keyword_density := 0
      keywords_found := []
      keyword_frequency := []
      total_keyword_occurrences := none }
  | _ =>
    let content_lower := (pyLower content).data
    let total_words := (pySplit (pyLower content)).length
    let r := kwLoop content_lower keywords
    let keyword_density := (r.2.2 : ℚ) / ((max total_words 1 : Nat) : ℚ) * 100
    { keyword_density := round2 keyword_density
      keywords_found := r.2.1
      keyword_frequency := r.1
      total_keyword_occurrences := some r.2.2 }

/-- Message for `word_count < 300`. -/
def seoShortMsg : String :=
  "Content is short. Consider adding more detail (aim for 300-1000 words)."

/-- Message for `word_count > 2000`. -/
def seoLongMsg : String :=
  "Content is very long. Consider breaking it into multiple pieces."

/-- Message for `density < 1`. -/
def seoDensityLowMsg : String :=
  "Keyword density is low. Try to naturally incorporate more target keywords."

/-- Message for `density > 3`. -/
def seoDensityHighMsg : String :=
  "Keyword density is high. Reduce keyword usage to avoid keyword stuffing."

/-- Message when the content has no question mark. -/
def seoQuestionMsg : String :=
  "Consider adding questions to increase engagement."

/-- Message when the content has no digit. -/
def seoNumbersMsg : String :=
  "Adding numbers or statistics can improve credibility and engagement."

/-- Message for `avg_words_per_sentence > 20`. -/
def seoSentenceMsg : String :=
  "Sentences are long. Shorten them for better readability."

/-- Fallback message when nothing triggered. -/
def seoLooksGoodMsg : String :=
  "Content looks good! No major SEO issues detected."

/-- `list(set(keywords) - set(keywords_found))`, enumerated in
first-occurrence order.  Python's set iteration order is arbitrary but fixed
within a process; any fixed enumeration of the set realizes it. -/
def missingKeywords (keywords found : List String) : List String :=
  (keywords.filter (fun kw => !(decide (kw ∈ found)))).dedup

/-- `ContentAnalytics.generate_seo_recommendations`: conditional messages
appended in the source's fixed order. -/
def generate_seo_recommendations (content : String) (keywords : List String) :
    List String :=
  let word_count := (pySplit content).length
  let wc_recs := if word_count < 300 then [seoShortMsg]
    else if 2000 < word_count then [seoLongMsg] else []
  let kw_recs := if keywords = [] then [] else
    let ka := analyze_keyword_density content keywords
    let density_recs := if ka.keyword_density < 1 then [seoDensityLowMsg]
      else if 3 < ka.keyword_density then [seoDensityHighMsg] else []
    let missing := missingKeywords keywords ka.keywords_found
    let missing_recs := if missing = [] then []
      else ["Missing keywords: " ++ String.intercalate ", " (missing.take 3)]
    density_recs ++ missing_recs
  let q_recs := if content.data.any (fun c => c == '?') then [] else [seoQuestionMsg]
  let d_recs := if content.data.any Char.isDigit then [] else [seoNumbersMsg]
  let s_recs := if 20 < (analyze_readability content).avg_words_per_sentence
    then [seoSentenceMsg] else []
  let recommendations := wc_recs ++ kw_recs ++ q_recs ++ d_recs ++ s_recs
  if recommendations = [] then [seoLooksGoodMsg] else recommendations

/-- Word-count check block of the SEO recommendation pipeline. -/
def seoWordCountBlock (content : String) : List String :=
  if (pySplit content).length < 300 then [seoShortMsg]
  else if 2000 < (pySplit content).length then [seoLongMsg] else []

/-- Keyword-density and missing-keyword check block (skipped for an empty
keyword list; at most 3 missing keywords are listed). -/
def seoKeywordBlock (content : String) (keywords : List String) : List String :=
  if keywords = [] then [] else
    (if (analyze_keyword_density content keywords).keyword_density < 1 then
      [seoDensityLowMsg]
     else if 3 < (analyze_keyword_density content keywords).keyword_density then
      [seoDensityHighMsg]
     else []) ++
    (if missingKeywords keywords (analyze_keyword_density content keywords).keywords_found
        = [] then []
     else ["Missing keywords: " ++ String.intercalate ", "
       ((missingKeywords keywords
         (analyze_keyword_density content keywords).keywords_found).take 3)])

/-- Question-mark check block. -/
def seoQuestionBlock (content : String) : List String :=
  if content.data.any (fun c => c == '?') then [] else [seoQuestionMsg]

/-- Digit check block. -/
def seoNumbersBlock (content : String) : List String :=
  if content.data.any Char.isDigit then [] else [seoNumbersMsg]

/-- Sentence-length check block. -/
def seoSentenceBlock (content : String) : List String :=
  if 20 < (analyze_readability content).avg_words_per_sentence then [seoSentenceMsg]
  else []

/-! ### Claims C4, C6, C7, C8, C10 -/

/-- C4 (amended: the empty-keyword early return omits the
`total_keyword_occurrences` field instead of reporting it): for every content
string, `analyze_keyword_density` with an empty keyword list returns density
0, an empty keywords-found list, an empty frequency map, and no
`total_keyword_occurrences` field. -/
theorem C4_empty_keywords (content : String) :
    analyze_keyword_density content [] =
      { keyword_density := 0, keywords_found := [], keyword_frequency := [],
        total_keyword_occurrences := none } :=
  rfl

/-- C4 counterexample: the result of the empty-keyword branch carries no
`total_keyword_occurrences` value, contradicting the claim that the field
required by the AnalysisReport structure is present. -/
theorem C4_counterexample :
    ¬ ∃ n : Nat,
      (analyze_keyword_density "AI content" []).total_keyword_occurrences = some n := by
  rintro ⟨n, hn⟩
  exact Option.noConfusion hn

theorem kwLoop_total (cl : List Char) (kws : List String) :
    (kwLoop cl kws).2.2 = (kws.map (fun kw => pyCount cl (pyLower kw).data)).sum := by
  induction kws with
  | nil => rfl
  | cons kw rest ih =>
    by_cases hc : 0 < pyCount cl (pyLower kw).data
    · simp only [kwLoop, if_pos hc, List.map_cons, List.sum_cons, ih]
    · have h0 : pyCount cl (pyLower kw).data = 0 := Nat.eq_zero_of_not_pos hc
      simp only [kwLoop, List.map_cons, List.sum_cons, ih, h0, Nat.zero_add,
        if_neg (lt_irrefl 0)]

/-- C7: for a non-empty keyword list the reported total is the sum over the
keywords of the case-insensitive non-overlapping substring count in the
content, and the reported density is that sum over `max(total_words, 1)`
times 100 (rounded to two decimals, as the code returns it); on the claim's
example the total is 2 and the density is 33.33. -/
theorem C7_keyword_density (content : String) (keywords : List String)
    (hne : keywords ≠ []) :
    (analyze_keyword_density content keywords).total_keyword_occurrences =
      some ((keywords.map (fun kw =>
        pyCount (pyLower content).data (pyLower kw).data)).sum) ∧
    (analyze_keyword_density content keywords).keyword_density =
      round2 ((((keywords.map (fun kw =>
          pyCount (pyLower content).data (pyLower kw).data)).sum : Nat) : ℚ) /
        (((max (pySplit (pyLower content)).length 1 : Nat)) : ℚ) * 100) ∧
    (analyze_keyword_density "AI is great for AI marketing"
      ["AI"]).total_keyword_occurrences = some 2 ∧
    (analyze_keyword_density "AI is great for AI marketing"
      ["AI"]).keyword_density = 3333 / 100 := by
  obtain ⟨kw, rest, rfl⟩ := List.exists_cons_of_ne_nil hne
  refine ⟨?_, ?_, by decide, ?_⟩
  · show some (kwLoop (pyLower content).data (kw :: rest)).2.2 = _
    rw [kwLoop_total]
  · show round2 ((((kwLoop (pyLower content).data (kw :: rest)).2.2 : Nat) : ℚ) /
        (((max (pySplit (pyLower content)).length 1 : Nat)) : ℚ) * 100) = _
    rw [kwLoop_total]
  · show round2 ((((2:Nat)) : ℚ) / (((max 6 1 : Nat)) : ℚ) * 100) = 3333 / 100
    have h1 : ((((2:Nat)) : ℚ) / (((max 6 1 : Nat)) : ℚ) * 100) * 100 + 1/2 =
        20003 / 6 := by
      push_cast
      norm_num
    rw [round2, round_eq, h1]
    have h2 : ⌊(20003 / 6 : ℚ)⌋ = 3333 := by
      rw [Int.floor_eq_iff]
      constructor <;> norm_num
    rw [h2]
    norm_num

theorem C7_keyword_density_witness :
    (["AI"] : List String) ≠ [] ∧
    (analyze_keyword_density "AI is great for AI marketing"
      ["AI"]).total_keyword_occurrences =
      some (((["AI"] : List String).map (fun kw =>
        pyCount (pyLower "AI is great for AI marketing").data (pyLower kw).data)).sum) :=
  ⟨by decide, (C7_keyword_density "AI is great for AI marketing" ["AI"] (by decide)).1⟩

/-- C8 (amended: the reported word count is 0 but the reported sentence count
is `max(0, 1) = 1`, not 0): `analyze_readability` on the empty string raises
no error, reports 0 words and 1 sentence, and returns a reading-ease score
(exactly 100 here) clamped within [0, 100]; the `max(..., 1)` denominators
prevent division by zero. -/
theorem C8_empty_readability :
    (analyze_readability "").total_words = 0 ∧
    (analyze_readability "").total_sentences = 1 ∧
    (analyze_readability "").reading_ease_score = 100 ∧
    0 ≤ (analyze_readability "").reading_ease_score ∧
    (analyze_readability "").reading_ease_score ≤ 100 := by
  have hs : (analyze_readability "").reading_ease_score =
      round2 (max 0 (min 100 (206835 / 1000
        - 1015 / 1000 * (((0:Nat) : ℚ) / ((1:Nat) : ℚ))
        - 846 / 10 * (((0:Nat) : ℚ) / (((max 0 1 : Nat)) : ℚ))))) := rfl
  have hval : round2 (max 0 (min 100 (206835 / 1000
      - 1015 / 1000 * (((0:Nat) : ℚ) / ((1:Nat) : ℚ))
      - 846 / 10 * (((0:Nat) : ℚ) / (((max 0 1 : Nat)) : ℚ))))) = 100 := by
    have h1 : (206835 / 1000 - 1015 / 1000 * (((0:Nat) : ℚ) / ((1:Nat) : ℚ))
        - 846 / 10 * (((0:Nat) : ℚ) / (((max 0 1 : Nat)) : ℚ))) = 206835 / 1000 := by
      push_cast
      norm_num
    rw [h1, min_def, if_pos (by norm_num : (100:ℚ) ≤ 206835 / 1000),
      max_def, if_pos (by norm_num : (0:ℚ) ≤ 100), round2, round_eq]
    have h2 : ((100:ℚ) * 100 + 1 / 2) = 20001 / 2 := by norm_num
    rw [h2]
    have h3 : ⌊(20001 / 2 : ℚ)⌋ = 10000 := by
      rw [Int.floor_eq_iff]
      constructor <;> norm_num
    rw [h3]
    norm_num
  refine ⟨rfl, rfl, ?_, ?_, ?_⟩
  · rw [hs, hval]
  · rw [hs, hval]
    norm_num
  · rw [hs, hval]

/-- C8 counterexample: for empty content the code reports
`total_sentences = max(0, 1) = 1`, not a sentence count of zero as the claim
states. -/
theorem C8_counterexample :
    ¬ ((analyze_readability "").total_words = 0 ∧
       (analyze_readability "").total_sentences = 0) := by
  decide

/-- C10: engagement counts each listed word at most once — presence as a
case-insensitive substring, not its number of occurrences — so the action
count is bounded by the 11-entry action list (similarly 10 positive and 9
negative), and a content repeating a single action word many times still
counts 1. -/
theorem C10_engagement_presence_counts (content : String) :
    (analyze_engagement_potential content).action_words_count ≤ 11 ∧
    (analyze_engagement_potential content).positive_words_count ≤ 10 ∧
    (analyze_engagement_potential content).negative_words_count ≤ 9 ∧
    (analyze_engagement_potential "buy buy buy buy buy").action_words_count = 1 := by
  refine ⟨?_, ?_, ?_, by decide⟩
  · exact le_trans (List.length_filter_le _ _) (by decide)
  · exact le_trans (List.length_filter_le _ _) (by decide)
  · exact le_trans (List.length_filter_le _ _) (by decide)

/-- C6: `generate_seo_recommendations` is deterministic — two calls on the
same fixed input return the identical list — and that list is produced by
the fixed order of checks: word count, density low/high, up to 3 missing
keywords, missing question mark, missing digit, long sentences, with a
single looks-good message when no check triggered. -/
theorem C6_seo_deterministic (content : String) (keywords : List String) :
    generate_seo_recommendations content keywords =
      generate_seo_recommendations content keywords ∧
    generate_seo_recommendations content keywords =
      (if seoWordCountBlock content ++ seoKeywordBlock content keywords ++
          seoQuestionBlock content ++ seoNumbersBlock content ++
          seoSentenceBlock content = [] then [seoLooksGoodMsg]
       else seoWordCountBlock content ++ seoKeywordBlock content keywords ++
          seoQuestionBlock content ++ seoNumbersBlock content ++
          seoSentenceBlock content) :=
  ⟨rfl, rfl⟩
